import Mathlib

/-!
# EmailSentinel — shallow embedding of `src/main.py`

Verification development for the EmailSentinel email-verification engine.
Each Python function of `src/main.py` that the specification talks about is
embedded as a Lean definition; external effects (DNS resolution, SMTP
round-trips, the DynamoDB result store, wall-clock time) are passed in as
explicit outcome values, so the control flow of the Python code becomes a
pure, executable Lean function over those outcomes.
-/

/-- The result dictionary `{"email": ..., "status": ..., "reason": ...}`
built throughout `src/main.py`. -/
structure VerificationResult where
  email : String
  status : String
  reason : String
  deriving DecidableEq, Repr

/-- `DISPOSABLE_EMAIL_DOMAINS` (main.py line 45). -/
def DISPOSABLE_EMAIL_DOMAINS : List String :=
  ["mailinator.com", "guerrillamail.com", "tempmail.com", "10minutemail.com"]

/-- `ROLE_BASED_EMAILS` (main.py line 49). -/
def ROLE_BASED_EMAILS : List String :=
  ["admin", "support", "info", "noreply", "sales", "contact"]

/-- Character class of the local part of `EMAIL_REGEX`:
the set written as a-zA-Z0-9 with underscore, dot, plus, hyphen. -/
def localChar (c : Char) : Bool :=
  c.isAlphanum || c == '_' || c == '.' || c == '+' || c == '-'

/-- Character class of the first domain label of `EMAIL_REGEX`:
a-zA-Z0-9 and hyphen. -/
def labelChar (c : Char) : Bool :=
  c.isAlphanum || c == '-'

/-- Character class of the tail of the domain in `EMAIL_REGEX`:
a-zA-Z0-9, hyphen and dot. -/
def tailChar (c : Char) : Bool :=
  c.isAlphanum || c == '-' || c == '.'

/-- Python's dollar anchor in `re.match` also matches just before one final
newline, so a single trailing newline is ignored by the pattern. -/
def stripFinalNewline (cs : List Char) : List Char :=
  match cs.reverse with
  | '\n' :: rest => rest.reverse
  | _ => cs

/-- `EmailVerifier.validate_syntax` (main.py lines 92-96): whether
`EMAIL_REGEX` matches the whole address.  The anchored pattern
local+ at-sign label+ dot tail+ matches exactly when: the part before the
first at-sign is a nonempty run of `localChar`, an at-sign follows, the part
up to the first subsequent dot is a nonempty run of `labelChar`, and the
remainder after that dot is a nonempty run of `tailChar`.  (The local class
excludes the at-sign and the label class excludes the dot, so the pattern's
at-sign and dot can only ever bind to the first occurrences.) -/
def validate_syntax (email : String) : Bool :=
  let cs := stripFinalNewline email.toList
  let localPart := cs.takeWhile (fun c => c != '@')
  match cs.dropWhile (fun c => c != '@') with
  | '@' :: domainCs =>
    let label := domainCs.takeWhile (fun c => c != '.')
    (match domainCs.dropWhile (fun c => c != '.') with
     | '.' :: tail =>
       !localPart.isEmpty && localPart.all localChar &&
       !label.isEmpty && label.all labelChar &&
       !tail.isEmpty && tail.all tailChar
     | _ => false)
  | _ => false

/-- Python `str.lower()` (main.py line 182), on the ASCII alphabet the
addresses and the two heuristic sets range over: lower-case every
character. -/
def lowerAscii (s : String) : String :=
  (s.toList.map Char.toLower).asString

/-- `email.rsplit("@", 1)` (main.py line 181): split at the last at-sign.
`process_email` only reaches this line after `validate_syntax` passed, which
guarantees an at-sign is present; the catch-all branch is therefore
unreachable there. -/
def rsplitAtSign (email : String) : String × String :=
  let rev := email.toList.reverse
  match rev.dropWhile (fun c => c != '@') with
  | '@' :: localRev =>
    (localRev.reverse.asString, (rev.takeWhile (fun c => c != '@')).reverse.asString)
  | _ => (email, "")

/-! ## DNS MX resolution -/

/-- Outcome of `self.resolver.resolve(domain, "MX")`: either a list of
answer records, each a (preference, exchange) pair, or one of the exception
classes distinguished by the handlers in `get_mx_records`. -/
inductive DnsOutcome where
  | answers (records : List (Nat × String))
  | nxdomain (message : String)
  | noAnswer (message : String)
  | otherFailure (message : String)
  deriving DecidableEq, Repr

/-- Python `str.rstrip with a dot` on the exchange hostname: drop every
trailing dot. -/
def rstripDots (s : String) : String :=
  (s.toList.reverse.dropWhile (fun c => c == '.')).reverse.asString

/-- Ordering of MX answer records by the `preference` field, the sort key of
`sorted(answers, key=lambda x: x.preference)`. -/
def prefLe (a b : Nat × String) : Prop := a.1 ≤ b.1

instance : DecidableRel prefLe := fun a b => Nat.decLe a.1 b.1

instance : IsTotal (Nat × String) prefLe := ⟨fun a b => Nat.le_total a.1 b.1⟩

instance : IsTrans (Nat × String) prefLe := ⟨fun _ _ _ => Nat.le_trans⟩

/-- `EmailVerifier.get_mx_records` (main.py lines 111-122): on a successful
resolution, the exchange hostnames with trailing dots stripped, in the
stable ascending order of `sorted` by preference; every exception branch
(NXDOMAIN, NoAnswer, and the catch-all handler) is absorbed into `[]`. -/
def get_mx_records : DnsOutcome → List String
  | DnsOutcome.answers records =>
    (List.insertionSort prefLe records).map (fun r => rstripDots r.2)
  | DnsOutcome.nxdomain _ => []
  | DnsOutcome.noAnswer _ => []
  | DnsOutcome.otherFailure _ => []

/-! ## SMTP probe -/

/-- Outcome of one probe attempt against one MX host through the
`smtp_client` context manager: either the numeric RCPT response
(code, message) or one of the two exception classes distinguished by the
handlers in `verify_smtp` (`aiosmtplib.SMTPException` versus any other
exception raised while connecting or talking to the host). -/
inductive SmtpAttempt where
  | response (code : Nat) (message : String)
  | smtpFailure (message : String)
  | connFailure (message : String)
  deriving DecidableEq, Repr

/-- Rate-limiter / connection events emitted on the probe path. -/
inductive ProbeEvent where
  | acquire
  | connect (host : String)
  deriving DecidableEq, Repr

/-- `EmailVerifier.smtp_client` (main.py lines 98-109) on entry: it first
awaits `rate_limiter.acquire()` and then opens the connection to the host
on port 25. -/
def smtpClientEvents (mxHost : String) : List ProbeEvent :=
  [ProbeEvent.acquire, ProbeEvent.connect mxHost]

/-- The loop body of `EmailVerifier.verify_smtp` (main.py lines 134-156),
instrumented with the probe events of each `smtp_client` entry.  The second
`String` argument is the running `result["reason"]`, initially empty.  A
250 response returns valid immediately; 550/551/552/553 return invalid;
421/451/452 return retry_later; any other code, and either exception class,
records a reason and falls through to the next MX candidate; an exhausted
list returns the running result, whose status is still undeliverable. -/
def verifySmtpGo (email : String) (outcome : String → SmtpAttempt) :
    List String → String → VerificationResult × List ProbeEvent
  | [], reason => (⟨email, "undeliverable", reason⟩, [])
  | mx :: rest, reason =>
    match outcome mx with
    | SmtpAttempt.response code message =>
      if code == 250 then
        (⟨email, "valid", "Mailbox exists"⟩, smtpClientEvents mx)
      else if code == 550 || code == 551 || code == 552 || code == 553 then
        (⟨email, "invalid", "Mailbox rejected: " ++ message⟩, smtpClientEvents mx)
      else if code == 421 || code == 451 || code == 452 then
        (⟨email, "retry_later", "Temporary failure: " ++ message⟩, smtpClientEvents mx)
      else
        let next := verifySmtpGo email outcome rest
          ("Unexpected SMTP code: " ++ toString code ++ " " ++ message)
        (next.1, smtpClientEvents mx ++ next.2)
    | SmtpAttempt.smtpFailure message =>
      let next := verifySmtpGo email outcome rest
        ("SMTP error with " ++ mx ++ ": " ++ message)
      (next.1, smtpClientEvents mx ++ next.2)
    | SmtpAttempt.connFailure message =>
      let next := verifySmtpGo email outcome rest
        ("Connection error with " ++ mx ++ ": " ++ message)
      (next.1, smtpClientEvents mx ++ next.2)

/-- `EmailVerifier.verify_smtp` (main.py lines 134-156): the classification
it returns, starting from `result = (email, undeliverable, empty reason)`. -/
def verify_smtp (email : String) (mxRecords : List String)
    (outcome : String → SmtpAttempt) : VerificationResult :=
  (verifySmtpGo email outcome mxRecords "").1

/-- The probe events `verify_smtp` emits while scanning the candidates. -/
def verifySmtpEvents (email : String) (mxRecords : List String)
    (outcome : String → SmtpAttempt) : List ProbeEvent :=
  (verifySmtpGo email outcome mxRecords "").2

/-- The RCPT codes `verify_smtp` treats as terminal: 250, the rejection
group 550/551/552/553 and the temporary-failure group 421/451/452. -/
def terminalCode (code : Nat) : Bool :=
  code == 250 || code == 550 || code == 551 || code == 552 || code == 553 ||
  code == 421 || code == 451 || code == 452

/-- An attempt that `verify_smtp` does not classify terminally: a response
with a code outside `terminalCode`, or either exception class. -/
def nonTerminalAttempt : SmtpAttempt → Bool
  | SmtpAttempt.response code _ => !(terminalCode code)
  | _ => true

/-- `EmailVerifier.is_catch_all` (main.py lines 158-172), instrumented with
the probe events of each `smtp_client` entry.  The RCPT target is the
random fabricated address; `outcome` gives each host's response to it.  A
250 response returns true immediately, every other response or exception
falls through to the next host, and an exhausted list returns false. -/
def is_catch_all (outcome : String → SmtpAttempt) :
    List String → Bool × List ProbeEvent
  | [] => (false, [])
  | mx :: rest =>
    match outcome mx with
    | SmtpAttempt.response code _ =>
      if code == 250 then (true, smtpClientEvents mx)
      else
        let next := is_catch_all outcome rest
        (next.1, smtpClientEvents mx ++ next.2)
    | _ =>
      let next := is_catch_all outcome rest
      (next.1, smtpClientEvents mx ++ next.2)

/-- Event-trace discipline: scanning left to right, every `connect` event is
immediately preceded by an `acquire` event.  The boolean argument records
whether the event just seen was an `acquire`. -/
def acquireBeforeConnect : Bool → List ProbeEvent → Bool
  | _, [] => true
  | _, ProbeEvent.acquire :: rest => acquireBeforeConnect true rest
  | justAcquired, ProbeEvent.connect _ :: rest =>
    justAcquired && acquireBeforeConnect false rest

/-! ## Rate limiter -/

/-- `RateLimiter` (main.py lines 55-78).  `tokens` is Python-float-valued;
it is embedded as a rational.  The monotonic clock is factored out: each
call to `_refill` receives the elapsed time since the previous refill as an
explicit nonnegative rational, which is the only way `last_refill` is
consumed, so the field itself is dropped. -/
structure RateLimiter where
  rate : ℚ
  capacity : ℚ
  tokens : ℚ
  deriving DecidableEq, Repr

/-- `RateLimiter.__init__`: the bucket starts full. -/
def RateLimiter.init (rate : ℚ) (capacity : ℚ) : RateLimiter :=
  ⟨rate, capacity, capacity⟩

/-- `RateLimiter._refill` (main.py lines 73-78): add `elapsed * rate`
tokens, capped at `capacity`. -/
def RateLimiter.refill (rl : RateLimiter) (elapsed : ℚ) : RateLimiter :=
  { rl with tokens := min rl.capacity (rl.tokens + elapsed * rl.rate) }

/-- The `while self.tokens < 1` loop of `acquire` (main.py lines 66-71):
each iteration sleeps and refills with the actual elapsed time, supplied
here as the next element of `waits`; when a token is available the loop
exits and one token is debited.  `none` means the supplied elapsed times
were exhausted while the caller was still waiting. -/
def acquireLoop : RateLimiter → List ℚ → Option RateLimiter
  | rl, [] =>
    if 1 ≤ rl.tokens then some { rl with tokens := rl.tokens - 1 } else none
  | rl, e :: rest =>
    if 1 ≤ rl.tokens then some { rl with tokens := rl.tokens - 1 }
    else acquireLoop (rl.refill e) rest

/-- `RateLimiter.acquire` (main.py lines 63-71): refill with the elapsed
time `e0` since the last refill, then run the wait-and-refill loop until a
token can be debited. -/
def RateLimiter.acquire (rl : RateLimiter) (e0 : ℚ) (waits : List ℚ) :
    Option RateLimiter :=
  acquireLoop (rl.refill e0) waits

/-! ## Result store and the engine -/

/-- The DynamoDB table operations used by `process_email`, each returning
either its outcome or the message of the exception it raised:
`get_item` reports whether an Item for the address exists, `update_item`
and `put_item` report success. -/
structure StoreBehavior where
  getItem : String → Except String Bool
  updateItem : String → String → String → Except String Unit
  putItem : VerificationResult → Except String Unit

/-- The DynamoDB block of `process_email` (main.py lines 203-227): a
read-then-write upsert inside one try/except whose handler only logs.  The
return value is the logged error message, if any; no exception escapes. -/
def attemptPersist (store : StoreBehavior) (email : String)
    (result : VerificationResult) : Option String :=
  match store.getItem email with
  | Except.error e => some ("DynamoDB operation failed for " ++ email ++ ": " ++ e)
  | Except.ok true =>
    match store.updateItem email result.status result.reason with
    | Except.error e => some ("DynamoDB operation failed for " ++ email ++ ": " ++ e)
    | Except.ok _ => none
  | Except.ok false =>
    match store.putItem result with
    | Except.error e => some ("DynamoDB operation failed for " ++ email ++ ": " ++ e)
    | Except.ok _ => none

/-- `EmailVerifier.process_email` (main.py lines 174-229).  Returns the
result handed back to the caller together with the logged persistence
error, if any.  The three heuristic rejections return before the DynamoDB
block; the two MX-based results fall through to it.  Note line 200: a
non-empty MX list yields the literal result valid / "MX records found"
(the source marks it "Simplified for testing") — `verify_smtp` is not
invoked, which is why no SMTP outcome parameter appears here. -/
def process_email (email : String) (dns : DnsOutcome) (store : StoreBehavior) :
    VerificationResult × Option String :=
  if !( validate_syntax email) then (⟨email, "invalid", "Invalid syntax"⟩, none)
  else
    let parts := rsplitAtSign email
    let localPart := lowerAscii parts.1
    let domain := lowerAscii parts.2
    if DISPOSABLE_EMAIL_DOMAINS.contains domain then
      (⟨email, "invalid", "Disposable email"⟩, none)
    else if ROLE_BASED_EMAILS.contains localPart then
      (⟨email, "caution", "Role-based email"⟩, none)
    else
      let mxRecords := get_mx_records dns
      let result :=
        if mxRecords.isEmpty then
          (⟨email, "invalid", "No MX records found"⟩ : VerificationResult)
        else ⟨email, "valid", "MX records found"⟩
      (result, attemptPersist store email result)

/-! ## Batch runner -/

/-- The chunking loop of `process_emails` inside `lambda_handler`
(main.py lines 240-241): the slices emails[i:i+B] for i = 0, B, 2B, ....
The guard on B = 0 only makes the recursion total; the Python loop is
always run with the positive configured batch size. -/
def batches (B : Nat) (emails : List String) : List (List String) :=
  if h : B = 0 ∨ emails = [] then []
  else emails.take B :: batches B (emails.drop B)
termination_by emails.length
decreasing_by
  push_neg at h
  have hpos : 0 < emails.length := List.length_pos.mpr h.2
  have hB : 0 < B := Nat.pos_of_ne_zero h.1
  simp only [List.length_drop]
  omega

/-- `process_emails` (main.py lines 236-246): each chunk is handed to
`asyncio.gather`, which returns that chunk's results in the chunk's own
order, and the chunks' result lists are appended one after another. -/
def process_emails (B : Nat) (f : String → VerificationResult)
    (emails : List String) : List VerificationResult :=
  ((batches B emails).map (fun batch => batch.map f)).flatten

/-! ## Concrete store behaviors used in statements -/

/-- A store whose three operations all succeed and that holds no existing
record for any address. -/
def okStore : StoreBehavior :=
  ⟨fun _ => Except.ok false, fun _ _ _ => Except.ok (), fun _ => Except.ok ()⟩

/-- A store whose every operation raises with the given message. -/
def failingStore (msg : String) : StoreBehavior :=
  ⟨fun _ => Except.error msg, fun _ _ _ => Except.error msg,
   fun _ => Except.error msg⟩

/-! ## Claims -/

/-- C1: the claim says `process_email` must invoke `verify_smtp` on a
non-empty MX candidate list and return the probe's classification, a
non-empty MX list never sufficing as evidence of validity.  The code does
the opposite: at the failing input `user@example.com` — heuristics pass,
MX lookup yields the single candidate `mx.example.com` — `process_email`
returns valid / "MX records found" from the MX list alone, while the probe
on that same candidate list would classify the address invalid when the
host rejects it with code 550. -/
theorem C1_mx_success_bypasses_probe :
    (process_email "user@example.com"
        (DnsOutcome.answers [(10, "mx.example.com")]) okStore).1 =
      ⟨"user@example.com", "valid", "MX records found"⟩ ∧
    verify_smtp "user@example.com" ["mx.example.com"]
        (fun _ => SmtpAttempt.response 550 "no such user") =
      ⟨"user@example.com", "invalid", "Mailbox rejected: no such user"⟩ :=
  ⟨by decide, by decide⟩

/-- C3: `get_mx_records` absorbs every resolution failure — NXDOMAIN,
NoAnswer, and any other resolver exception — into the empty list, and on a
successful resolution returns the exchange hostnames (trailing dots
stripped) of a permutation of the answer records that is sorted ascending
by preference. -/
theorem C3_mx_failures_absorbed :
    (∀ m, get_mx_records (DnsOutcome.nxdomain m) = []) ∧
    (∀ m, get_mx_records (DnsOutcome.noAnswer m) = []) ∧
    (∀ m, get_mx_records (DnsOutcome.otherFailure m) = []) ∧
    (∀ records, ∃ s : List (Nat × String), s.Perm records ∧
      List.Sorted prefLe s ∧
      get_mx_records (DnsOutcome.answers records) =
        s.map (fun r => rstripDots r.2)) :=
  ⟨fun _ => rfl, fun _ => rfl, fun _ => rfl, fun records =>
    ⟨List.insertionSort prefLe records,
     List.perm_insertionSort prefLe records,
     List.sorted_insertionSort prefLe records, rfl⟩⟩

/-- C7: the verification result `process_email` returns does not depend on
the result store's behavior in any way, and a store whose operations raise
is absorbed into a logged error message rather than an exception. -/
theorem C7_persistence_never_alters_result :
    (∀ email dns store store',
      (process_email email dns store).1 = (process_email email dns store').1) ∧
    (∀ email result msg,
      attemptPersist (failingStore msg) email result =
        some ("DynamoDB operation failed for " ++ email ++ ": " ++ msg)) := by
  constructor
  · intro email dns store store'
    simp only [process_email]
    repeat' split
    all_goals rfl
  · intro email result msg
    rfl

/-- C10: every result `process_email` returns carries one of the three
statuses valid, invalid, caution; retry_later and undeliverable are never
produced, whatever the address, the DNS outcome and the store behavior. -/
theorem C10_engine_status_range (email : String) (dns : DnsOutcome)
    (store : StoreBehavior) :
    (process_email email dns store).1.status = "valid" ∨
    (process_email email dns store).1.status = "invalid" ∨
    (process_email email dns store).1.status = "caution" := by
  simp only [process_email]
  repeat' split
  all_goals simp

/-- C5: the heuristic pipeline short-circuits in the order
Syntax → Disposable → RoleBased → MxLookup: a syntax failure returns
invalid / "Invalid syntax" with no dependence on the DNS outcome or the
store and no persistence attempt; a disposable domain returns
invalid / "Disposable email" regardless of the DNS outcome and before the
role check (no assumption on the local part is needed); the role check
fires only on a non-disposable domain, returning caution /
"Role-based email" independent of MX resolution. -/
theorem C5_short_circuit_order :
    (∀ email dns store, validate_syntax email = false →
      process_email email dns store =
        (⟨email, "invalid", "Invalid syntax"⟩, none)) ∧
    (∀ email dns store, validate_syntax email = true →
      lowerAscii (rsplitAtSign email).2 ∈ DISPOSABLE_EMAIL_DOMAINS →
      process_email email dns store =
        (⟨email, "invalid", "Disposable email"⟩, none)) ∧
    (∀ email dns store, validate_syntax email = true →
      lowerAscii (rsplitAtSign email).2 ∉ DISPOSABLE_EMAIL_DOMAINS →
      lowerAscii (rsplitAtSign email).1 ∈ ROLE_BASED_EMAILS →
      process_email email dns store =
        (⟨email, "caution", "Role-based email"⟩, none)) := by
  refine ⟨fun email dns store h1 => ?_, fun email dns store h1 h2 => ?_,
    fun email dns store h1 h2 h3 => ?_⟩
  · simp [process_email, h1]
  · simp [process_email, h1, h2]
  · simp [process_email, h1, h2, h3]

/-- C5 witness: a concrete run of each short-circuit stage.  The second
address has a role-based local part on a disposable domain, so the
disposable stage answers; the third shows the role result standing even
when every store operation fails. -/
theorem C5_witness :
    process_email "no-at-sign" (DnsOutcome.answers [(1, "mx")]) okStore =
      (⟨"no-at-sign", "invalid", "Invalid syntax"⟩, none) ∧
    process_email "Admin@Mailinator.com" (DnsOutcome.nxdomain "nx") okStore =
      (⟨"Admin@Mailinator.com", "invalid", "Disposable email"⟩, none) ∧
    process_email "admin@example.com" (DnsOutcome.answers [(1, "mx")])
        (failingStore "boom") =
      (⟨"admin@example.com", "caution", "Role-based email"⟩, none) :=
  ⟨C5_short_circuit_order.1 _ _ _ (by decide),
   C5_short_circuit_order.2.1 _ _ _ (by decide) (by decide),
   C5_short_circuit_order.2.2 _ _ _ (by decide) (by decide) (by decide)⟩

/-- A string with a non-empty prefix is non-empty. -/
theorem append_ne_empty_left (s t : String) (h : s ≠ "") : s ++ t ≠ "" := by
  intro hc
  apply h
  have hd := congrArg String.data hc
  rw [String.data_append] at hd
  have h0 := (List.append_eq_nil.mp hd).1
  cases s
  simp_all

/-- Every non-base recursion step of `verify_smtp` overwrites the running
reason with a non-empty message, so the returned reason is non-empty as
soon as the reason carried in is, or at least one candidate remains. -/
theorem verifySmtpGo_reason_ne (email : String) (outcome : String → SmtpAttempt) :
    ∀ (mxs : List String) (reason : String), (reason ≠ "" ∨ mxs ≠ []) →
      (verifySmtpGo email outcome mxs reason).1.reason ≠ "" := by
  intro mxs
  induction mxs with
  | nil =>
    intro reason h
    exact h.resolve_right (fun hc => hc rfl)
  | cons mx rest ih =>
    intro reason _
    cases ho : outcome mx with
    | response code message =>
      simp only [verifySmtpGo, ho]
      split
      · simp
      · split
        · show "Mailbox rejected: " ++ message ≠ ""
          exact append_ne_empty_left _ _ (by decide)
        · split
          · show "Temporary failure: " ++ message ≠ ""
            exact append_ne_empty_left _ _ (by decide)
          · exact ih _ (Or.inl (append_ne_empty_left _ _
              (append_ne_empty_left _ _ (append_ne_empty_left _ _ (by decide)))))
    | smtpFailure message =>
      simp only [verifySmtpGo, ho]
      exact ih _ (Or.inl (append_ne_empty_left _ _
        (append_ne_empty_left _ _ (append_ne_empty_left _ _ (by decide)))))
    | connFailure message =>
      simp only [verifySmtpGo, ho]
      exact ih _ (Or.inl (append_ne_empty_left _ _
        (append_ne_empty_left _ _ (append_ne_empty_left _ _ (by decide)))))

/-- C9 counterexample: on an empty MX candidate list `verify_smtp` reaches
the terminal status undeliverable with the initial empty reason — there is
no default reason in the code, so the claim that a terminal result always
carries a non-empty reason fails at this input. -/
theorem C9_counterexample_empty_reason :
    (verify_smtp "a@b.c" [] (fun _ => SmtpAttempt.connFailure "refused")).status =
      "undeliverable" ∧
    (verify_smtp "a@b.c" [] (fun _ => SmtpAttempt.connFailure "refused")).reason =
      "" :=
  ⟨rfl, rfl⟩

/-- C9 amended: on a NON-EMPTY candidate list every terminal result of
`verify_smtp` carries a non-empty reason (each non-terminal candidate
overwrites the running reason with a non-empty message, so exhaustion keeps
the last one; there is no separate default), and every result of
`process_email` carries a non-empty reason. -/
theorem C9_amended_nonempty_reason (email : String)
    (outcome : String → SmtpAttempt) (mxs : List String) (h : mxs ≠ []) :
    (verify_smtp email mxs outcome).reason ≠ "" ∧
    ∀ e dns store, (process_email e dns store).1.reason ≠ "" := by
  constructor
  · exact verifySmtpGo_reason_ne email outcome mxs "" (Or.inr h)
  · intro e dns store
    simp only [process_email]
    repeat' split
    all_goals simp

/-- C9 witness: the amended statement applied to one concrete non-empty
candidate list. -/
theorem C9_witness :
    (verify_smtp "a@b.c" ["mx1"]
      (fun _ => SmtpAttempt.response 250 "ok")).reason ≠ "" :=
  (C9_amended_nonempty_reason "a@b.c" (fun _ => SmtpAttempt.response 250 "ok")
    ["mx1"] (by decide)).1

/-- If every candidate's attempt is non-terminal, the scan of `verify_smtp`
ends with the running undeliverable result. -/
theorem verifySmtpGo_all_nonterminal (email : String)
    (outcome : String → SmtpAttempt) :
    ∀ (mxs : List String) (reason : String),
      (∀ mx ∈ mxs, nonTerminalAttempt (outcome mx) = true) →
      (verifySmtpGo email outcome mxs reason).1.status = "undeliverable" := by
  intro mxs
  induction mxs with
  | nil => intro reason _; rfl
  | cons mx rest ih =>
    intro reason h
    have hmx := h mx (List.mem_cons_self mx rest)
    have hrest : ∀ m ∈ rest, nonTerminalAttempt (outcome m) = true :=
      fun m hm => h m (List.mem_cons_of_mem mx hm)
    cases ho : outcome mx with
    | response code message =>
      rw [ho] at hmx
      have ht : terminalCode code = false := by
        simpa [nonTerminalAttempt] using hmx
      simp only [terminalCode, Bool.or_eq_false_iff] at ht
      obtain ⟨⟨⟨⟨⟨⟨⟨h250, h550⟩, h551⟩, h552⟩, h553⟩, h421⟩, h451⟩, h452⟩ := ht
      simp only [verifySmtpGo, ho, h250, h550, h551, h552, h553, h421, h451,
        h452, Bool.or_self, Bool.false_eq_true, if_false]
      exact ih _ hrest
    | smtpFailure message =>
      simp only [verifySmtpGo, ho]
      exact ih _ hrest
    | connFailure message =>
      simp only [verifySmtpGo, ho]
      exact ih _ hrest

/-- C2: `verify_smtp` classifies the first terminal RCPT code and stops.
A 250 on the first candidate returns valid / "Mailbox exists" whatever the
remaining candidates are, and its event trace shows no further host is
attempted; a code in 550/551/552/553 returns invalid with that host's
message; a code in 421/451/452 returns retry_later with that host's
message; a non-terminal code records its message as the running reason and
continues with the next candidate; when every candidate's attempt is
non-terminal, the final status is undeliverable. -/
theorem C2_first_terminal_classification :
    (∀ email outcome mx rest msg,
      outcome mx = SmtpAttempt.response 250 msg →
      verify_smtp email (mx :: rest) outcome =
        ⟨email, "valid", "Mailbox exists"⟩ ∧
      verifySmtpEvents email (mx :: rest) outcome =
        [ProbeEvent.acquire, ProbeEvent.connect mx]) ∧
    (∀ email outcome mx rest code msg,
      outcome mx = SmtpAttempt.response code msg →
      (code = 550 ∨ code = 551 ∨ code = 552 ∨ code = 553) →
      verify_smtp email (mx :: rest) outcome =
        ⟨email, "invalid", "Mailbox rejected: " ++ msg⟩) ∧
    (∀ email outcome mx rest code msg,
      outcome mx = SmtpAttempt.response code msg →
      (code = 421 ∨ code = 451 ∨ code = 452) →
      verify_smtp email (mx :: rest) outcome =
        ⟨email, "retry_later", "Temporary failure: " ++ msg⟩) ∧
    (∀ email outcome mx rest reason code msg,
      outcome mx = SmtpAttempt.response code msg →
      terminalCode code = false →
      (verifySmtpGo email outcome (mx :: rest) reason).1 =
        (verifySmtpGo email outcome rest
          ("Unexpected SMTP code: " ++ toString code ++ " " ++ msg)).1) ∧
    (∀ email outcome mxs,
      (∀ mx ∈ mxs, nonTerminalAttempt (outcome mx) = true) →
      (verify_smtp email mxs outcome).status = "undeliverable") := by
  refine ⟨?_, ?_, ?_, ?_, ?_⟩
  · intro email outcome mx rest msg h
    constructor
    · simp [verify_smtp, verifySmtpGo, h]
    · simp [verifySmtpEvents, verifySmtpGo, h, smtpClientEvents]
  · rintro email outcome mx rest code msg h (rfl | rfl | rfl | rfl) <;>
      simp [verify_smtp, verifySmtpGo, h]
  · rintro email outcome mx rest code msg h (rfl | rfl | rfl) <;>
      simp [verify_smtp, verifySmtpGo, h]
  · intro email outcome mx rest reason code msg h ht
    simp only [terminalCode, Bool.or_eq_false_iff] at ht
    obtain ⟨⟨⟨⟨⟨⟨⟨h250, h550⟩, h551⟩, h552⟩, h553⟩, h421⟩, h451⟩, h452⟩ := ht
    simp only [verifySmtpGo, h, h250, h550, h551, h552, h553, h421, h451,
      h452, Bool.or_self, Bool.false_eq_true, if_false]
  · intro email outcome mxs h
    exact verifySmtpGo_all_nonterminal email outcome mxs "" h

/-- C2 witness: the specification's own example — one candidate answering
452 yields retry_later carrying that host's message — and a probe whose
hosts are all unreachable yielding undeliverable. -/
theorem C2_witness :
    verify_smtp "a@b.c" ["mx1"] (fun _ => SmtpAttempt.response 452 "busy") =
      ⟨"a@b.c", "retry_later", "Temporary failure: busy"⟩ ∧
    (verify_smtp "a@b.c" ["m1", "m2"]
      (fun _ => SmtpAttempt.connFailure "refused")).status = "undeliverable" :=
  ⟨C2_first_terminal_classification.2.2.1 "a@b.c"
      (fun _ => SmtpAttempt.response 452 "busy") "mx1" [] 452 "busy" rfl
      (Or.inr (Or.inr rfl)),
   C2_first_terminal_classification.2.2.2.2 "a@b.c"
      (fun _ => SmtpAttempt.connFailure "refused") ["m1", "m2"]
      (fun mx _ => rfl)⟩

/-- Every trace `verify_smtp` emits satisfies the acquire-before-connect
discipline, whatever flag the scan starts from. -/
theorem verifySmtpGo_events_guarded (email : String)
    (outcome : String → SmtpAttempt) :
    ∀ (mxs : List String) (reason : String) (b : Bool),
      acquireBeforeConnect b (verifySmtpGo email outcome mxs reason).2 = true := by
  intro mxs
  induction mxs with
  | nil => intro reason b; rfl
  | cons mx rest ih =>
    intro reason b
    cases ho : outcome mx with
    | response code message =>
      simp only [verifySmtpGo, ho, smtpClientEvents]
      split
      · rfl
      · split
        · rfl
        · split
          · rfl
          · simpa [acquireBeforeConnect] using ih _ false
    | smtpFailure message =>
      simp only [verifySmtpGo, ho, smtpClientEvents]
      simpa [acquireBeforeConnect] using ih _ false
    | connFailure message =>
      simp only [verifySmtpGo, ho, smtpClientEvents]
      simpa [acquireBeforeConnect] using ih _ false

/-- Every trace `is_catch_all` emits satisfies the acquire-before-connect
discipline, whatever flag the scan starts from. -/
theorem isCatchAll_events_guarded (outcome : String → SmtpAttempt) :
    ∀ (mxs : List String) (b : Bool),
      acquireBeforeConnect b (is_catch_all outcome mxs).2 = true := by
  intro mxs
  induction mxs with
  | nil => intro b; rfl
  | cons mx rest ih =>
    intro b
    cases ho : outcome mx with
    | response code message =>
      simp only [is_catch_all, ho, smtpClientEvents]
      split
      · rfl
      · simpa [acquireBeforeConnect] using ih false
    | smtpFailure message =>
      simp only [is_catch_all, ho, smtpClientEvents]
      simpa [acquireBeforeConnect] using ih false
    | connFailure message =>
      simp only [is_catch_all, ho, smtpClientEvents]
      simpa [acquireBeforeConnect] using ih false

/-- C8: on both probe paths — the per-address probe and catch-all
detection — every connection opening in the emitted event trace is
immediately preceded by a `RateLimiter.acquire` call, for every address,
candidate list and host behavior. -/
theorem C8_limiter_before_connect (email : String)
    (outcome : String → SmtpAttempt) (mxs : List String) :
    acquireBeforeConnect false (verifySmtpEvents email mxs outcome) = true ∧
    acquireBeforeConnect false (is_catch_all outcome mxs).2 = true :=
  ⟨verifySmtpGo_events_guarded email outcome mxs "" false,
   isCatchAll_events_guarded outcome mxs false⟩

/-- `_refill` keeps a nonnegative token count at or below capacity. -/
theorem refill_bounds (rl : RateLimiter) (e : ℚ) (hcap : 0 ≤ rl.capacity)
    (hrate : 0 ≤ rl.rate) (he : 0 ≤ e) (h0 : 0 ≤ rl.tokens) :
    0 ≤ (rl.refill e).tokens ∧ (rl.refill e).tokens ≤ rl.capacity := by
  unfold RateLimiter.refill
  exact ⟨le_min hcap (add_nonneg h0 (mul_nonneg he hrate)), min_le_left _ _⟩

/-- The wait-and-refill loop of `acquire` debits its token only once at
least one token is available, so on completion the count is still within
the bucket, and the capacity field is untouched. -/
theorem acquireLoop_bounds :
    ∀ (waits : List ℚ) (rl rl2 : RateLimiter),
      0 ≤ rl.capacity → 0 ≤ rl.rate → (∀ e ∈ waits, 0 ≤ e) →
      0 ≤ rl.tokens → rl.tokens ≤ rl.capacity →
      acquireLoop rl waits = some rl2 →
      (0 ≤ rl2.tokens ∧ rl2.tokens ≤ rl2.capacity) ∧
        rl2.capacity = rl.capacity := by
  intro waits
  induction waits with
  | nil =>
    intro rl rl2 hcap hrate _ h0 h1 hacq
    simp only [acquireLoop] at hacq
    split at hacq
    · rename_i hge
      injection hacq with h2
      subst h2
      refine ⟨⟨?_, ?_⟩, rfl⟩ <;> dsimp only <;> linarith
    · cases hacq
  | cons e rest ih =>
    intro rl rl2 hcap hrate hw h0 h1 hacq
    simp only [acquireLoop] at hacq
    split at hacq
    · rename_i hge
      injection hacq with h2
      subst h2
      refine ⟨⟨?_, ?_⟩, rfl⟩ <;> dsimp only <;> linarith
    · have hb := refill_bounds rl e hcap hrate (hw e (List.mem_cons_self e rest)) h0
      exact ih (rl.refill e) rl2 hcap hrate
        (fun x hx => hw x (List.mem_cons_of_mem e hx)) hb.1 hb.2 hacq

/-- C4: from any state satisfying the bucket invariant — tokens within
[0, capacity], nonnegative capacity, positive rate — and for nonnegative
elapsed times, `_refill` keeps the token count within [0, capacity], and
whenever `acquire` completes its debit the resulting count lies within
[0, capacity] again; the debit happens only from a count of at least
one. -/
theorem C4_tokens_within_bucket (rl rl2 : RateLimiter) (e0 : ℚ)
    (waits : List ℚ) (hcap : 0 ≤ rl.capacity) (hrate : 0 < rl.rate)
    (h0 : 0 ≤ rl.tokens) (h1 : rl.tokens ≤ rl.capacity)
    (he : 0 ≤ e0) (hw : ∀ e ∈ waits, 0 ≤ e)
    (hacq : rl.acquire e0 waits = some rl2) :
    (0 ≤ (rl.refill e0).tokens ∧ (rl.refill e0).tokens ≤ rl.capacity) ∧
    (0 ≤ rl2.tokens ∧ rl2.tokens ≤ rl.capacity) := by
  have hb := refill_bounds rl e0 hcap (le_of_lt hrate) he h0
  refine ⟨hb, ?_⟩
  have hl := acquireLoop_bounds waits (rl.refill e0) rl2 hcap (le_of_lt hrate)
    hw hb.1 hb.2 hacq
  have h2 := hl.1.2
  rw [hl.2] at h2
  exact ⟨hl.1.1, h2⟩

/-- C4 witness: rate 1, capacity 2, full bucket, zero elapsed time, no
wait iterations; `acquire` returns the bucket with one token debited. -/
theorem C4_witness :
    (0 ≤ ((RateLimiter.init 1 2).refill 0).tokens ∧
      ((RateLimiter.init 1 2).refill 0).tokens ≤
        (RateLimiter.init 1 2).capacity) ∧
    (0 ≤ (⟨1, 2, 1⟩ : RateLimiter).tokens ∧
      (⟨1, 2, 1⟩ : RateLimiter).tokens ≤ (RateLimiter.init 1 2).capacity) :=
  C4_tokens_within_bucket (RateLimiter.init 1 2) ⟨1, 2, 1⟩ 0 []
    (by decide) (by decide) (by decide) (by decide) (by decide)
    (by intro e he; cases he)
    (by simp [RateLimiter.acquire, acquireLoop, RateLimiter.refill,
          RateLimiter.init]
        norm_num)

/-- The chunking loop on an empty input produces no chunk. -/
theorem batches_nil (B : Nat) : batches B [] = [] := by
  rw [batches]
  simp

/-- One iteration of the chunking loop on a positive batch size and a
non-empty input. -/
theorem batches_cons (B : Nat) (emails : List String) (hB : B ≠ 0)
    (he : emails ≠ []) :
    batches B emails = emails.take B :: batches B (emails.drop B) := by
  rw [batches]
  simp [hB, he]

/-- The chunks concatenate back to the input list. -/
theorem batches_flatten (B : Nat) (hB : 0 < B) :
    ∀ (n : Nat) (emails : List String), emails.length ≤ n →
      (batches B emails).flatten = emails := by
  intro n
  induction n with
  | zero =>
    intro emails h
    have he : emails = [] := List.eq_nil_of_length_eq_zero (Nat.le_zero.mp h)
    subst he
    simp [batches_nil]
  | succ n ih =>
    intro emails h
    by_cases he : emails = []
    · subst he
      simp [batches_nil]
    · have hlen : (emails.drop B).length ≤ n := by
        have := List.length_pos.mpr he
        simp only [List.length_drop]
        omega
      rw [batches_cons B emails (Nat.pos_iff_ne_zero.mp hB) he,
        List.flatten_cons, ih (emails.drop B) hlen]
      exact List.take_append_drop B emails

/-- The number of chunks is the ceiling of N divided by B. -/
theorem batches_count (B : Nat) (hB : 0 < B) :
    ∀ (n : Nat) (emails : List String), emails.length ≤ n →
      (batches B emails).length = (emails.length + B - 1) / B := by
  intro n
  induction n with
  | zero =>
    intro emails h
    have he : emails = [] := List.eq_nil_of_length_eq_zero (Nat.le_zero.mp h)
    subst he
    simp only [batches_nil, List.length_nil]
    exact (Nat.div_eq_of_lt (by omega)).symm
  | succ n ih =>
    intro emails h
    by_cases he : emails = []
    · subst he
      simp only [batches_nil, List.length_nil]
      exact (Nat.div_eq_of_lt (by omega)).symm
    · have hpos := List.length_pos.mpr he
      have hlen : (emails.drop B).length ≤ n := by
        simp only [List.length_drop]
        omega
      rw [batches_cons B emails (Nat.pos_iff_ne_zero.mp hB) he,
        List.length_cons, ih (emails.drop B) hlen, List.length_drop]
      rcases Nat.le_total B emails.length with hBL | hLB
      · have h1 : emails.length - B + B - 1 = emails.length - 1 := by omega
        have h2 : emails.length + B - 1 = emails.length - 1 + B := by omega
        rw [h1, h2, Nat.add_div_right _ hB]
      · have h1 : emails.length - B = 0 := by omega
        have h2 : emails.length + B - 1 = emails.length - 1 + B := by omega
        rw [h1, h2, Nat.add_div_right _ hB, Nat.div_eq_of_lt (by omega),
          Nat.div_eq_of_lt (by omega)]

/-- Every chunk holds at most B addresses. -/
theorem batches_sizes (B : Nat) (hB : 0 < B) :
    ∀ (n : Nat) (emails : List String), emails.length ≤ n →
      ∀ b ∈ batches B emails, b.length ≤ B := by
  intro n
  induction n with
  | zero =>
    intro emails h b hb
    have he : emails = [] := List.eq_nil_of_length_eq_zero (Nat.le_zero.mp h)
    subst he
    simp [batches_nil] at hb
  | succ n ih =>
    intro emails h b hb
    by_cases he : emails = []
    · subst he
      simp [batches_nil] at hb
    · rw [batches_cons B emails (Nat.pos_iff_ne_zero.mp hB) he] at hb
      rcases List.mem_cons.mp hb with rfl | hb2
      · exact List.length_take_le B emails
      · have hlen : (emails.drop B).length ≤ n := by
          have := List.length_pos.mpr he
          simp only [List.length_drop]
          omega
        exact ih (emails.drop B) hlen b hb2

/-- C6: for a positive batch size B, the batch loop partitions the N input
addresses into exactly ceil(N/B) consecutive chunks of at most B addresses
whose concatenation is the input, and the runner's aggregate output is the
per-address results in input order — in particular of length N, each
result at its address's position. -/
theorem C6_batch_runner (B : Nat) (f : String → VerificationResult)
    (emails : List String) (hB : 0 < B) :
    (batches B emails).length = (emails.length + B - 1) / B ∧
    (batches B emails).flatten = emails ∧
    (batches B emails).all (fun b => b.length ≤ B) = true ∧
    process_emails B f emails = emails.map f := by
  refine ⟨batches_count B hB emails.length emails le_rfl,
    batches_flatten B hB emails.length emails le_rfl, ?_, ?_⟩
  · rw [List.all_eq_true]
    intro b hb
    simpa using batches_sizes B hB emails.length emails le_rfl b hb
  · unfold process_emails
    calc ((batches B emails).map (fun batch => batch.map f)).flatten
        = ((batches B emails).flatten).map f :=
          (List.map_flatten f (batches B emails)).symm
      _ = emails.map f := by
          rw [batches_flatten B hB emails.length emails le_rfl]

/-- C6 witness: three addresses in batches of two give two chunks, the
partition flattens back, and the output is the input-order map. -/
theorem C6_witness :
    (batches 2 ["a", "b", "c"]).length = (3 + 2 - 1) / 2 ∧
    (batches 2 ["a", "b", "c"]).flatten = ["a", "b", "c"] ∧
    (batches 2 ["a", "b", "c"]).all (fun b => b.length ≤ 2) = true ∧
    process_emails 2 (fun e => ⟨e, "valid", "MX records found"⟩)
        ["a", "b", "c"] =
      ["a", "b", "c"].map (fun e => ⟨e, "valid", "MX records found"⟩) :=
  C6_batch_runner 2 (fun e => ⟨e, "valid", "MX records found"⟩)
    ["a", "b", "c"] (by decide)
